import Mathlib

/-!
Shallow embedding of the host-volume data model and operations of
`nomad/structs/host_volumes.go`, together with a model of the leader-side
heartbeat timer logic exercised by `TestHeartbeat_ResetHeartbeatTimer`.

Go errors are modelled as `List String` of error messages: the Go code
accumulates errors in a `multierror` and returns `nil` exactly when no error
was appended, which corresponds to the empty list here
(`helper.FlattenMultierror` only reshapes the nesting of the multierror and
is the identity on the flat list of messages).

Go nil pointers are modelled with `Option`; Go slices and maps are modelled
as lists (a map as an association list). `time.Time` values appear in the
code only through `UnixNano()`, so times are passed as `Int` nanoseconds.
-/

/-- `Constraint` as used by `HostVolume`: only the `Operand` field is
inspected by the code under study; `LTarget`/`RTarget` are carried along. -/
structure Constraint where
  ltarget : String
  rtarget : String
  operand : String
deriving Repr, DecidableEq

def ConstraintDistinctHosts : String := "distinct_hosts"

def ConstraintDistinctProperty : String := "distinct_property"

/-- `Constraint.Copy` is a value copy of the struct (the element copy used by
`helper.CopySlice` in `HostVolume.Copy`). -/
def Constraint.Copy (c : Constraint) : Constraint := c

/-- `AllocListStub`: only the `ID` field is read by `ValidateUpdate`. -/
structure AllocListStub where
  id : String
deriving Repr, DecidableEq

def HostVolumeStateUnknown : String := ""

def HostVolumeStatePending : String := "pending"

def HostVolumeStateReady : String := "ready"

def HostVolumeStateDeleted : String := "deleted"

def HostVolumeAttachmentModeUnknown : String := ""

def HostVolumeAttachmentModeBlockDevice : String := "block-device"

def HostVolumeAttachmentModeFilesystem : String := "file-system"

def HostVolumeAccessModeUnknown : String := ""

def HostVolumeAccessModeSingleNodeReader : String := "single-node-reader-only"

def HostVolumeAccessModeSingleNodeWriter : String := "single-node-writer"

def HostVolumeAccessModeMultiNodeReader : String := "multi-node-reader-only"

def HostVolumeAccessModeMultiNodeSingleWriter : String := "multi-node-single-writer"

def HostVolumeAccessModeMultiNodeMultiWriter : String := "multi-node-multi-writer"

/-- `HostVolumeCapability`: a requested (attachment mode, access mode) pair. -/
structure HostVolumeCapability where
  attachmentMode : String
  accessMode : String
deriving Repr, DecidableEq

/-- `HostVolumeCapability.Copy`: nil receiver yields nil; otherwise a value
copy of the struct (`nhvc := *hvc; return &nhvc`). -/
def HostVolumeCapability.Copy : Option HostVolumeCapability → Option HostVolumeCapability
  | none => none
  | some c => some c

/-- `HostVolumeCapability.Validate`: error on a nil receiver; otherwise the
attachment mode must be block-device or file-system (checked first, with an
early return) and the access mode one of the five defined modes. -/
def HostVolumeCapability.Validate : Option HostVolumeCapability → Option String
  | none => some "validate called on nil host volume capability"
  | some c =>
    if c.attachmentMode = HostVolumeAttachmentModeBlockDevice ∨
       c.attachmentMode = HostVolumeAttachmentModeFilesystem then
      if c.accessMode = HostVolumeAccessModeSingleNodeReader ∨
         c.accessMode = HostVolumeAccessModeSingleNodeWriter ∨
         c.accessMode = HostVolumeAccessModeMultiNodeReader ∨
         c.accessMode = HostVolumeAccessModeMultiNodeSingleWriter ∨
         c.accessMode = HostVolumeAccessModeMultiNodeMultiWriter then
        none
      else
        some ("invalid access mode: \"" ++ c.accessMode ++ "\"")
    else
      some ("invalid attachment mode: \"" ++ c.attachmentMode ++ "\"")

/-- The `HostVolume` record, fields as in the Go struct. -/
structure HostVolume where
  vnamespace : String := ""
  id : String := ""
  name : String := ""
  pluginID : String := ""
  nodePool : String := ""
  nodeID : String := ""
  constraints : List Constraint := []
  requestedCapacityMinBytes : Int := 0
  requestedCapacityMaxBytes : Int := 0
  capacityBytes : Int := 0
  requestedCapabilities : List (Option HostVolumeCapability) := []
  parameters : List (String × String) := []
  hostPath : String := ""
  state : String := ""
  createIndex : Nat := 0
  createTime : Int := 0
  modifyIndex : Nat := 0
  modifyTime : Int := 0
  allocations : List AllocListStub := []
deriving Repr, DecidableEq

/-- Modelled from the spec: `helper.IsUUID` is not under `src/`; the spec
only requires a "well-formed or empty ID", so the standard 8-4-4-4-12
hexadecimal UUID shape is used. -/
def IsUUID (s : String) : Bool :=
  match s.splitOn "-" with
  | [a, b, c, d, e] =>
    a.length = 8 && b.length = 4 && c.length = 4 && d.length = 4 &&
    e.length = 12 && (a ++ b ++ c ++ d ++ e).all fun ch =>
      ch.isDigit || ('a' ≤ ch && ch ≤ 'f') || ('A' ≤ ch && ch ≤ 'F')
  | _ => false

/-- `HostVolume.Copy`: nil receiver yields nil; otherwise a struct copy with
`Constraints` and `RequestedCapabilities` rebuilt element-by-element via
`helper.CopySlice` (which calls each element's `Copy`), and `Parameters`
rebuilt via `maps.Clone`; all other fields, `Allocations` included, are
carried over by the struct copy `nhv := *hv`. -/
def HostVolume.Copy : Option HostVolume → Option HostVolume
  | none => none
  | some hv => some
    { hv with
      constraints := hv.constraints.map Constraint.Copy
      requestedCapabilities := hv.requestedCapabilities.map HostVolumeCapability.Copy
      parameters := hv.parameters.map fun p => p }

/-- The capacity-ordering error message produced by `HostVolume.Validate`. -/
def capacityOrderMsg (maxB minB : Int) : String :=
  "capacity_max (" ++ toString maxB ++ ") must be larger than capacity_min ("
    ++ toString minB ++ ")"

/-- The error message `HostVolume.Validate` produces for a
`distinct_hosts`/`distinct_property` constraint. -/
def distinctConstraintMsg (operand : String) : String :=
  "invalid constraint " ++ operand
    ++ ": host volumes of the same name are always on distinct hosts"

/-- The per-constraint loop of `HostVolume.Validate`: each constraint
contributes its own `Validate` error (wrapped as "invalid constraint: ...")
and, independently, an error when its operand is `distinct_hosts` or
`distinct_property`.  `Constraint.Validate` itself is not under `src/`, so
it is taken as a parameter `cv`. -/
def validateConstraints (cv : Constraint → Option String) : List Constraint → List String
  | [] => []
  | c :: rest =>
    (match cv c with
     | some e => ["invalid constraint: " ++ e]
     | none => [])
    ++ (if c.operand = ConstraintDistinctHosts ∨ c.operand = ConstraintDistinctProperty then
          [distinctConstraintMsg c.operand]
        else [])
    ++ validateConstraints cv rest

/-- `HostVolume.Validate`: field-value validation.  Checks, in order: a
non-empty ID must be a UUID; the name must be non-empty; `capacity_max` must
be at least `capacity_min`; at least one capability block must be present
and each present block must validate; each constraint is validated and the
`distinct_hosts`/`distinct_property` operands are rejected outright. -/
def HostVolume.Validate (cv : Constraint → Option String) (hv : HostVolume) : List String :=
  (if hv.id ≠ "" ∧ IsUUID hv.id = false then ["invalid ID"] else [])
  ++ (if hv.name = "" then ["missing name"] else [])
  ++ (if hv.requestedCapacityMaxBytes < hv.requestedCapacityMinBytes then
        [capacityOrderMsg hv.requestedCapacityMaxBytes hv.requestedCapacityMinBytes]
      else [])
  ++ (if hv.requestedCapabilities = [] then
        ["must include at least one capability block"]
      else hv.requestedCapabilities.filterMap HostVolumeCapability.Validate)
  ++ validateConstraints cv hv.constraints

/-- The in-use error message of `ValidateUpdate`. -/
def claimedByAllocsMsg (allocs : List AllocListStub) : String :=
  "cannot update a volume in use: claimed by allocs ("
    ++ String.intercalate ", " (allocs.map AllocListStub.id) ++ ")"

/-- The capacity error message of `ValidateUpdate`. -/
def capacityUpdateMsg (maxB existingCap : Int) : String :=
  "capacity_max (" ++ toString maxB
    ++ ") cannot be less than existing provisioned capacity ("
    ++ toString existingCap ++ ")"

/-- `HostVolume.ValidateUpdate`: checks that an update against an existing
volume is safe.  A nil existing volume passes.  Otherwise errors accumulate
for: existing non-terminal allocation claims; a non-empty `NodeID` differing
from the existing one; a non-empty `NodePool` differing from the existing
one; and a requested `capacity_max` below the provisioned capacity. -/
def HostVolume.ValidateUpdate (hv : HostVolume) : Option HostVolume → List String
  | none => []
  | some existing =>
    (if existing.allocations.length > 0 then
       [claimedByAllocsMsg existing.allocations]
     else [])
    ++ (if hv.nodeID ≠ "" ∧ hv.nodeID ≠ existing.nodeID then
          ["node ID cannot be updated"]
        else [])
    ++ (if hv.nodePool ≠ "" ∧ hv.nodePool ≠ existing.nodePool then
          ["node pool cannot be updated"]
        else [])
    ++ (if hv.requestedCapacityMaxBytes < existing.capacityBytes then
          [capacityUpdateMsg hv.requestedCapacityMaxBytes existing.capacityBytes]
        else [])

def DefaultHostVolumePlugin : String := "default"

/-- `HostVolume.CanonicalizeForUpdate`: with no existing volume, assigns the
freshly generated UUID (`uuid.Generate()` is modelled by the `newID`
argument), defaults the plugin ID, zeroes `CapacityBytes`/`HostPath` and
stamps `CreateTime`; with an existing volume, copies
`PluginID`/`NodePool`/`NodeID`/`Constraints`/`CapacityBytes`/`HostPath`/
`CreateTime` from it.  In both cases the state is reset to pending, the
modify time stamped, and `Allocations` cleared. -/
def HostVolume.CanonicalizeForUpdate (hv : HostVolume) (existing : Option HostVolume)
    (newID : String) (now : Int) : HostVolume :=
  let hv1 : HostVolume :=
    match existing with
    | none =>
      { hv with
        id := newID
        pluginID := if hv.pluginID = "" then DefaultHostVolumePlugin else hv.pluginID
        capacityBytes := 0
        hostPath := ""
        createTime := now }
    | some e =>
      { hv with
        pluginID := e.pluginID
        nodePool := e.nodePool
        nodeID := e.nodeID
        constraints := e.constraints
        capacityBytes := e.capacityBytes
        hostPath := e.hostPath
        createTime := e.createTime }
  { hv1 with
    state := HostVolumeStatePending
    modifyTime := now
    allocations := [] }

/-- Modelled from the spec: the leader-only heartbeat monitor state
(`Server.heartbeatTimers` and `Config.MinHeartbeatTTL`); the implementation
of `resetHeartbeatTimer` is not under `src/` (only its test is).  Timers are
a map from node ID to the wall-clock deadline at which the node expires. -/
structure HeartbeatServer where
  isLeader : Bool
  minHeartbeatTTL : Nat
  now : Nat
  heartbeatTimers : List (String × Nat)
deriving Repr, DecidableEq

/-- Modelled from the spec: `resetHeartbeatTimer` fails when called off
leader; otherwise it picks a TTL of `MinHeartbeatTTL` plus a random stagger
in `[0, MinHeartbeatTTL]` (the `stagger` argument models the random draw),
installs (or replaces) the node's timer with deadline `now + ttl`, and
returns the TTL. -/
def resetHeartbeatTimer (s : HeartbeatServer) (node : String) (stagger : Nat) :
    Option (Nat × HeartbeatServer) :=
  if s.isLeader = false then
    none
  else
    let ttl := s.minHeartbeatTTL + stagger
    some (ttl,
      { s with heartbeatTimers :=
          (node, s.now + ttl) :: s.heartbeatTimers.filter fun p => p.1 ≠ node })

/-- Modelled from the spec: a node is expired at wall-clock time `t` iff it
has an installed timer whose deadline has passed. -/
def nodeExpiredAt (s : HeartbeatServer) (node : String) (t : Nat) : Bool :=
  s.heartbeatTimers.any fun p => decide (p.1 = node) && decide (p.2 ≤ t)

/-! ## Theorems -/

/-- C4: `HostVolumeCapability.Validate` succeeds iff the capability is
non-nil, its attachment mode is block-device or file-system, and its access
mode is one of the five defined access modes; in particular a nil
capability, and an empty or unknown attachment or access mode, each yield an
error. -/
theorem capability_validate_ok_iff (c : Option HostVolumeCapability) :
    HostVolumeCapability.Validate c = none ↔
      ∃ cap, c = some cap ∧
        (cap.attachmentMode = HostVolumeAttachmentModeBlockDevice ∨
         cap.attachmentMode = HostVolumeAttachmentModeFilesystem) ∧
        (cap.accessMode = HostVolumeAccessModeSingleNodeReader ∨
         cap.accessMode = HostVolumeAccessModeSingleNodeWriter ∨
         cap.accessMode = HostVolumeAccessModeMultiNodeReader ∨
         cap.accessMode = HostVolumeAccessModeMultiNodeSingleWriter ∨
         cap.accessMode = HostVolumeAccessModeMultiNodeMultiWriter) := by
  cases c with
  | none => simp [HostVolumeCapability.Validate]
  | some cap =>
    simp only [HostVolumeCapability.Validate, Option.some.injEq]
    constructor
    · intro h
      by_cases ha : cap.attachmentMode = HostVolumeAttachmentModeBlockDevice ∨
          cap.attachmentMode = HostVolumeAttachmentModeFilesystem
      · rw [if_pos ha] at h
        by_cases hb : cap.accessMode = HostVolumeAccessModeSingleNodeReader ∨
            cap.accessMode = HostVolumeAccessModeSingleNodeWriter ∨
            cap.accessMode = HostVolumeAccessModeMultiNodeReader ∨
            cap.accessMode = HostVolumeAccessModeMultiNodeSingleWriter ∨
            cap.accessMode = HostVolumeAccessModeMultiNodeMultiWriter
        · exact ⟨cap, rfl, ha, hb⟩
        · rw [if_neg hb] at h; exact absurd h (by simp)
      · rw [if_neg ha] at h; exact absurd h (by simp)
    · rintro ⟨cap2, heq, ha, hb⟩
      cases heq
      rw [if_pos ha, if_pos hb]

/-- C10: `ValidateUpdate` rejects any update whose requested maximum
capacity is below the existing volume's provisioned capacity, and the
returned error set is in particular non-empty. -/
theorem validateUpdate_capacity_floor (hv e : HostVolume)
    (h : hv.requestedCapacityMaxBytes < e.capacityBytes) :
    capacityUpdateMsg hv.requestedCapacityMaxBytes e.capacityBytes
        ∈ hv.ValidateUpdate (some e) ∧
      hv.ValidateUpdate (some e) ≠ [] := by
  have hmem : capacityUpdateMsg hv.requestedCapacityMaxBytes e.capacityBytes
      ∈ hv.ValidateUpdate (some e) := by
    simp only [HostVolume.ValidateUpdate, List.mem_append]
    right
    rw [if_pos h]
    exact List.mem_singleton_self _
  exact ⟨hmem, List.ne_nil_of_mem hmem⟩

def hvTen : HostVolume := { requestedCapacityMaxBytes := 5 }

def eTen : HostVolume := { capacityBytes := 10 }

/-- Witness for C10 at `capacity_max = 5` against provisioned capacity 10. -/
theorem validateUpdate_capacity_floor_witness :
    capacityUpdateMsg 5 10 ∈ hvTen.ValidateUpdate (some eTen) ∧
      hvTen.ValidateUpdate (some eTen) ≠ [] :=
  validateUpdate_capacity_floor hvTen eTen (by decide)

def hvSix : HostVolume :=
  { name := "vol", constraints := [⟨"${attr.kernel.name}", "linux", "="⟩] }

def eSix : HostVolume := { name := "vol", constraints := [] }

/-- C6 counterexample: an update whose `Constraints` differ from the
existing volume's passes `ValidateUpdate` with no error — the claim that the
update path rejects constraint changes with an error is false. -/
theorem constraints_change_not_rejected :
    hvSix.constraints ≠ eSix.constraints ∧ hvSix.ValidateUpdate (some eSix) = [] := by
  decide

/-- C6 amended: the update path does not reject a changed `Constraints`
field; `ValidateUpdate` ignores the submitted constraints entirely (its
result is unchanged under any replacement of them), and instead
`CanonicalizeForUpdate` silently discards the submitted constraints and
keeps the existing volume's, so constraints cannot be changed once set. -/
theorem canonicalizeForUpdate_constraints_from_existing
    (hv e : HostVolume) (cs : List Constraint) (newID : String) (now : Int) :
    (hv.CanonicalizeForUpdate (some e) newID now).constraints = e.constraints ∧
      ({ hv with constraints := cs } : HostVolume).ValidateUpdate (some e) =
        hv.ValidateUpdate (some e) :=
  ⟨rfl, rfl⟩

/-- C7: `CanonicalizeForUpdate` with no existing volume installs the fresh
ID, defaults the plugin ID when empty, zeroes capacity and host path and
stamps the create time; with an existing volume it copies plugin ID, node
pool, node ID, constraints, capacity, host path and create time from it; in
both cases the result is pending, its modify time is `now`, and its
allocations are cleared. -/
theorem canonicalizeForUpdate_fields (hv : HostVolume) (newID : String) (now : Int) :
    ((hv.CanonicalizeForUpdate none newID now).id = newID ∧
     (hv.CanonicalizeForUpdate none newID now).pluginID =
        (if hv.pluginID = "" then DefaultHostVolumePlugin else hv.pluginID) ∧
     (hv.CanonicalizeForUpdate none newID now).capacityBytes = 0 ∧
     (hv.CanonicalizeForUpdate none newID now).hostPath = "" ∧
     (hv.CanonicalizeForUpdate none newID now).createTime = now) ∧
    (∀ e : HostVolume,
      (hv.CanonicalizeForUpdate (some e) newID now).pluginID = e.pluginID ∧
      (hv.CanonicalizeForUpdate (some e) newID now).nodePool = e.nodePool ∧
      (hv.CanonicalizeForUpdate (some e) newID now).nodeID = e.nodeID ∧
      (hv.CanonicalizeForUpdate (some e) newID now).constraints = e.constraints ∧
      (hv.CanonicalizeForUpdate (some e) newID now).capacityBytes = e.capacityBytes ∧
      (hv.CanonicalizeForUpdate (some e) newID now).hostPath = e.hostPath ∧
      (hv.CanonicalizeForUpdate (some e) newID now).createTime = e.createTime) ∧
    (∀ e : Option HostVolume,
      (hv.CanonicalizeForUpdate e newID now).state = HostVolumeStatePending ∧
      (hv.CanonicalizeForUpdate e newID now).modifyTime = now ∧
      (hv.CanonicalizeForUpdate e newID now).allocations = []) := by
  refine ⟨⟨rfl, rfl, rfl, rfl, rfl⟩,
          fun e => ⟨rfl, rfl, rfl, rfl, rfl, rfl, rfl⟩,
          fun e => ?_⟩
  cases e <;> exact ⟨rfl, rfl, rfl⟩

/-- C9: `Copy` is nil-safe and value-preserving: copying nil gives nil, and
the copy of a volume is field-for-field equal to the original; the
`Constraints` and `RequestedCapabilities` lists are rebuilt element-by-
element (each element's `Copy` preserves its value), which is how the
embedding renders the freshly-allocated slices of the Go code. -/
theorem hostVolume_copy_spec (hv : HostVolume) :
    HostVolume.Copy none = none ∧
      HostVolume.Copy (some hv) = some hv ∧
      hv.constraints.map Constraint.Copy = hv.constraints ∧
      hv.requestedCapabilities.map HostVolumeCapability.Copy = hv.requestedCapabilities := by
  have hcc : ∀ l : List Constraint, l.map Constraint.Copy = l := by
    intro l
    induction l with
    | nil => rfl
    | cons a l ih => simp [Constraint.Copy, ih]
  have hcap : ∀ l : List (Option HostVolumeCapability),
      l.map HostVolumeCapability.Copy = l := by
    intro l
    induction l with
    | nil => rfl
    | cons a l ih =>
      cases a <;> simp [HostVolumeCapability.Copy, ih]
  refine ⟨rfl, ?_, hcc _, hcap _⟩
  simp only [HostVolume.Copy, hcc, hcap, List.map_id', Option.some.injEq]

/-- C1: `ValidateUpdate` errors when the existing volume is claimed by at
least one allocation (and the error set is then non-empty), and
independently errors when the update carries a non-empty `NodeID` differing
from the existing one, or a non-empty `NodePool` differing from the
existing one. -/
theorem validateUpdate_claims_and_node_immutability (hv e : HostVolume) :
    (e.allocations ≠ [] →
      claimedByAllocsMsg e.allocations ∈ hv.ValidateUpdate (some e) ∧
        hv.ValidateUpdate (some e) ≠ []) ∧
    (hv.nodeID ≠ "" ∧ hv.nodeID ≠ e.nodeID →
      "node ID cannot be updated" ∈ hv.ValidateUpdate (some e)) ∧
    (hv.nodePool ≠ "" ∧ hv.nodePool ≠ e.nodePool →
      "node pool cannot be updated" ∈ hv.ValidateUpdate (some e)) := by
  refine ⟨fun h => ?_, fun h => ?_, fun h => ?_⟩
  · have hmem : claimedByAllocsMsg e.allocations ∈ hv.ValidateUpdate (some e) := by
      simp only [HostVolume.ValidateUpdate]
      refine List.mem_append_left _ (List.mem_append_left _ (List.mem_append_left _ ?_))
      rw [if_pos (List.length_pos.mpr h)]
      exact List.mem_singleton_self _
    exact ⟨hmem, List.ne_nil_of_mem hmem⟩
  · simp only [HostVolume.ValidateUpdate]
    refine List.mem_append_left _ (List.mem_append_left _ (List.mem_append_right _ ?_))
    rw [if_pos h]
    exact List.mem_singleton_self _
  · simp only [HostVolume.ValidateUpdate]
    refine List.mem_append_left _ (List.mem_append_right _ ?_)
    rw [if_pos h]
    exact List.mem_singleton_self _

def hvOne : HostVolume := { nodeID := "node2", nodePool := "pool2" }

def eOne : HostVolume :=
  { nodeID := "node1", nodePool := "pool1", allocations := [⟨"alloc1"⟩] }

/-- Witness for C1: an update that changes node ID and node pool against a
claimed volume collects all three errors. -/
theorem validateUpdate_claims_and_node_immutability_witness :
    (claimedByAllocsMsg eOne.allocations ∈ hvOne.ValidateUpdate (some eOne) ∧
      hvOne.ValidateUpdate (some eOne) ≠ []) ∧
    "node ID cannot be updated" ∈ hvOne.ValidateUpdate (some eOne) ∧
    "node pool cannot be updated" ∈ hvOne.ValidateUpdate (some eOne) :=
  ⟨(validateUpdate_claims_and_node_immutability hvOne eOne).1 (by decide),
   (validateUpdate_claims_and_node_immutability hvOne eOne).2.1 (by decide),
   (validateUpdate_claims_and_node_immutability hvOne eOne).2.2 (by decide)⟩

/-- C5: any constraint with operand `distinct_hosts` or `distinct_property`
makes `Validate` report the dedicated rejection error, whatever the
constraint's own validation (`cv`) says about it. -/
theorem validate_rejects_distinct_constraints
    (cv : Constraint → Option String) (hv : HostVolume) (c : Constraint)
    (hc : c ∈ hv.constraints)
    (hop : c.operand = ConstraintDistinctHosts ∨ c.operand = ConstraintDistinctProperty) :
    distinctConstraintMsg c.operand ∈ hv.Validate cv := by
  have key : ∀ cs : List Constraint, c ∈ cs →
      distinctConstraintMsg c.operand ∈ validateConstraints cv cs := by
    intro cs
    induction cs with
    | nil => intro h; cases h
    | cons a rest ih =>
      intro h
      simp only [validateConstraints]
      rcases List.mem_cons.mp h with heq | hmem
      · subst heq
        refine List.mem_append_left _ (List.mem_append_right _ ?_)
        rw [if_pos hop]
        exact List.mem_singleton_self _
      · exact List.mem_append_right _ (ih hmem)
  simp only [HostVolume.Validate]
  exact List.mem_append_right _ (key _ hc)

def cvSome : Constraint → Option String := fun _ => some "malformed"

def hvFive : HostVolume :=
  { name := "vol", constraints := [⟨"", "", "distinct_hosts"⟩] }

/-- Witness for C5: a `distinct_hosts` constraint is rejected even under a
constraint validator that itself also reports an error. -/
theorem validate_rejects_distinct_constraints_witness :
    distinctConstraintMsg "distinct_hosts" ∈ hvFive.Validate cvSome :=
  validate_rejects_distinct_constraints cvSome hvFive ⟨"", "", "distinct_hosts"⟩
    (by decide) (Or.inl rfl)

/-- `validateConstraints` reports nothing when every constraint validates
and none uses a distinct-placement operand. -/
theorem validateConstraints_eq_nil (cv : Constraint → Option String)
    (cs : List Constraint)
    (h : ∀ c ∈ cs, cv c = none ∧ c.operand ≠ ConstraintDistinctHosts ∧
        c.operand ≠ ConstraintDistinctProperty) :
    validateConstraints cv cs = [] := by
  induction cs with
  | nil => rfl
  | cons a rest ih =>
    obtain ⟨h1, h2, h3⟩ := h a (List.mem_cons_self a rest)
    have hrest := ih fun c hc => h c (List.mem_cons_of_mem a hc)
    simp [validateConstraints, h1, h2, h3, hrest]

/-- C2: a volume with no requested capability fails `Validate` with the
missing-capability error; a volume whose other fields are valid and which
requests exactly the (file-system, single-node-writer) capability passes
`Validate` with no error. -/
theorem validate_capability_requirements
    (cv : Constraint → Option String) (hv : HostVolume) :
    (hv.requestedCapabilities = [] →
      "must include at least one capability block" ∈ hv.Validate cv) ∧
    (hv.name ≠ "" →
      (hv.id = "" ∨ IsUUID hv.id = true) →
      hv.requestedCapacityMinBytes ≤ hv.requestedCapacityMaxBytes →
      (∀ c ∈ hv.constraints, cv c = none ∧ c.operand ≠ ConstraintDistinctHosts ∧
          c.operand ≠ ConstraintDistinctProperty) →
      hv.requestedCapabilities =
        [some { attachmentMode := HostVolumeAttachmentModeFilesystem,
                accessMode := HostVolumeAccessModeSingleNodeWriter }] →
      hv.Validate cv = []) := by
  constructor
  · intro h
    simp only [HostVolume.Validate]
    refine List.mem_append_left _ (List.mem_append_right _ ?_)
    rw [if_pos h]
    exact List.mem_singleton_self _
  · intro hname hid hcapord hcons hcaps
    have hA : (if hv.id ≠ "" ∧ IsUUID hv.id = false then ["invalid ID"] else []) = [] := by
      rw [if_neg]
      rintro ⟨hne, hff⟩
      rcases hid with h | h
      · exact hne h
      · rw [h] at hff; cases hff
    have hB : (if hv.name = "" then ["missing name"] else []) = [] := if_neg hname
    have hC : (if hv.requestedCapacityMaxBytes < hv.requestedCapacityMinBytes then
        [capacityOrderMsg hv.requestedCapacityMaxBytes hv.requestedCapacityMinBytes]
        else []) = [] := if_neg (Int.not_lt.mpr hcapord)
    have hD : (if hv.requestedCapabilities = [] then
        ["must include at least one capability block"]
        else hv.requestedCapabilities.filterMap HostVolumeCapability.Validate) = [] := by
      rw [hcaps]; decide
    have hE : validateConstraints cv hv.constraints = [] :=
      validateConstraints_eq_nil cv hv.constraints hcons
    simp only [HostVolume.Validate, hA, hB, hC, hD, hE, List.append_nil, List.nil_append]

def cvNone : Constraint → Option String := fun _ => none

def hvTwoA : HostVolume := { name := "volA" }

def hvTwoB : HostVolume :=
  { name := "volB",
    requestedCapacityMinBytes := 5,
    requestedCapacityMaxBytes := 10,
    requestedCapabilities := [some ⟨"file-system", "single-node-writer"⟩] }

/-- Witness for C2: the missing-capability error on a capability-less
volume, and a fully valid single-capability volume validating cleanly. -/
theorem validate_capability_requirements_witness :
    "must include at least one capability block" ∈ hvTwoA.Validate cvNone ∧
      hvTwoB.Validate cvNone = [] :=
  ⟨(validate_capability_requirements cvNone hvTwoA).1 rfl,
   (validate_capability_requirements cvNone hvTwoB).2 (by decide) (Or.inl rfl)
     (by decide) (fun c hc => absurd hc (List.not_mem_nil c)) rfl⟩

/-- First character of a string, used to separate the error-message families
of `Validate`. -/
def strHead (s : String) : Option Char := s.data.head?

/-- Appending on the right preserves a known first character. -/
theorem strHead_append_left (s t : String) (c : Char) (h : strHead s = some c) :
    strHead (s ++ t) = some c := by
  obtain ⟨x, xs, hxs⟩ : ∃ x xs, s.data = x :: xs := by
    cases hsd : s.data with
    | nil => rw [strHead, hsd] at h; cases h
    | cons x xs => exact ⟨x, xs, rfl⟩
  rw [strHead, hxs] at h
  rw [strHead, String.data_append, hxs, List.cons_append, List.head?_cons]
  exact h

/-- Every capacity-ordering message starts with `c`. -/
theorem capacityOrderMsg_strHead (a b : Int) : strHead (capacityOrderMsg a b) = some 'c' := by
  unfold capacityOrderMsg
  apply strHead_append_left
  apply strHead_append_left
  apply strHead_append_left
  apply strHead_append_left
  rfl

/-- Every error message of `HostVolumeCapability.Validate` starts with `v`
or `i`. -/
theorem capabilityValidate_strHead (oc : Option HostVolumeCapability) (msg : String)
    (h : HostVolumeCapability.Validate oc = some msg) :
    strHead msg = some 'v' ∨ strHead msg = some 'i' := by
  cases oc with
  | none =>
    injection h with h
    subst h
    left
    rfl
  | some c =>
    simp only [HostVolumeCapability.Validate] at h
    split at h
    · split at h
      · cases h
      · injection h with h
        subst h
        right
        apply strHead_append_left
        apply strHead_append_left
        rfl
    · injection h with h
      subst h
      right
      apply strHead_append_left
      apply strHead_append_left
      rfl

/-- Every error message of the constraint loop starts with `i`. -/
theorem validateConstraints_strHead (cv : Constraint → Option String)
    (cs : List Constraint) (msg : String) (h : msg ∈ validateConstraints cv cs) :
    strHead msg = some 'i' := by
  induction cs with
  | nil => cases h
  | cons a rest ih =>
    simp only [validateConstraints, List.mem_append] at h
    rcases h with (h | h) | h
    · rcases hcv : cv a with _ | e
      · rw [hcv] at h; cases h
      · rw [hcv] at h
        rcases List.mem_singleton.mp h with rfl
        apply strHead_append_left
        rfl
    · split at h
      · rcases List.mem_singleton.mp h with rfl
        unfold distinctConstraintMsg
        apply strHead_append_left
        apply strHead_append_left
        rfl
      · cases h
    · exact ih h

/-- When the capacity ordering holds, no message of `Validate` starts with
`c` (all its message families start with `i`, `m` or `v`). -/
theorem validate_no_c_message (cv : Constraint → Option String) (hv : HostVolume)
    (hord : hv.requestedCapacityMinBytes ≤ hv.requestedCapacityMaxBytes)
    (msg : String) (hm : msg ∈ hv.Validate cv) : strHead msg ≠ some 'c' := by
  simp only [HostVolume.Validate, List.mem_append] at hm
  rcases hm with (((h1 | h2) | h3) | h4) | h5
  · split at h1
    · rcases List.mem_singleton.mp h1 with rfl
      intro hc; cases hc
    · cases h1
  · split at h2
    · rcases List.mem_singleton.mp h2 with rfl
      intro hc; cases hc
    · cases h2
  · rw [if_neg (Int.not_lt.mpr hord)] at h3
    cases h3
  · split at h4
    · rcases List.mem_singleton.mp h4 with rfl
      intro hc; cases hc
    · obtain ⟨oc, _, hval⟩ := List.mem_filterMap.mp h4
      rcases capabilityValidate_strHead oc msg hval with h | h <;>
        · rw [h]; intro hc; cases hc
  · rw [validateConstraints_strHead cv hv.constraints msg h5]
    intro hc; cases hc

/-- C3: when the requested maximum capacity is below the requested minimum,
`Validate` reports the capacity-ordering error (in particular the message
for min 10 / max 5); when the ordering holds, no capacity-ordering message
appears in the result. -/
theorem validate_capacity_ordering (cv : Constraint → Option String) (hv : HostVolume) :
    (hv.requestedCapacityMaxBytes < hv.requestedCapacityMinBytes →
      capacityOrderMsg hv.requestedCapacityMaxBytes hv.requestedCapacityMinBytes
        ∈ hv.Validate cv) ∧
    (hv.requestedCapacityMinBytes = 10 → hv.requestedCapacityMaxBytes = 5 →
      capacityOrderMsg 5 10 ∈ hv.Validate cv) ∧
    (hv.requestedCapacityMinBytes ≤ hv.requestedCapacityMaxBytes →
      ∀ a b : Int, capacityOrderMsg a b ∉ hv.Validate cv) := by
  have hmain : hv.requestedCapacityMaxBytes < hv.requestedCapacityMinBytes →
      capacityOrderMsg hv.requestedCapacityMaxBytes hv.requestedCapacityMinBytes
        ∈ hv.Validate cv := by
    intro h
    simp only [HostVolume.Validate]
    refine List.mem_append_left _ (List.mem_append_left _ (List.mem_append_right _ ?_))
    rw [if_pos h]
    exact List.mem_singleton_self _
  refine ⟨hmain, fun h10 h5 => ?_, fun hord a b hmem => ?_⟩
  · have h := hmain (by rw [h10, h5]; decide)
    rw [h10, h5] at h
    exact h
  · exact validate_no_c_message cv hv hord _ hmem (capacityOrderMsg_strHead a b)

def hvThreeA : HostVolume :=
  { name := "vol", requestedCapacityMinBytes := 10, requestedCapacityMaxBytes := 5 }

def hvThreeB : HostVolume :=
  { name := "vol", requestedCapacityMinBytes := 1, requestedCapacityMaxBytes := 2 }

/-- Witness for C3: min 10 / max 5 produces the capacity-ordering error;
min 1 / max 2 produces none. -/
theorem validate_capacity_ordering_witness :
    capacityOrderMsg 5 10 ∈ hvThreeA.Validate cvNone ∧
      capacityOrderMsg 2 1 ∉ hvThreeB.Validate cvNone :=
  ⟨(validate_capacity_ordering cvNone hvThreeA).2.1 rfl rfl,
   (validate_capacity_ordering cvNone hvThreeB).2.2 (by decide) 2 1⟩

/-- C8: on the leader, renewing a node's heartbeat succeeds and, for the
returned TTL and new state, the TTL lies in `[MinHeartbeatTTL,
2*MinHeartbeatTTL]`, a timer with deadline `now + ttl` is installed for the
node, and the node is not expired at any time before that deadline. -/
theorem resetHeartbeatTimer_ttl_range (s : HeartbeatServer) (node : String) (stagger : Nat)
    (hl : s.isLeader = true) (hs : stagger ≤ s.minHeartbeatTTL) :
    (resetHeartbeatTimer s node stagger).isSome = true ∧
      ∀ ttl s2, resetHeartbeatTimer s node stagger = some (ttl, s2) →
        s.minHeartbeatTTL ≤ ttl ∧ ttl ≤ 2 * s.minHeartbeatTTL ∧
          (node, s.now + ttl) ∈ s2.heartbeatTimers ∧
          ∀ t, t < s.now + ttl → nodeExpiredAt s2 node t = false := by
  constructor
  · simp [resetHeartbeatTimer, hl]
  · intro ttl s2 h
    simp only [resetHeartbeatTimer, hl, Bool.true_eq_false, if_false,
      Option.some.injEq, Prod.mk.injEq] at h
    obtain ⟨httl, hs2⟩ := h
    subst httl
    subst hs2
    refine ⟨Nat.le_add_right _ _, by omega, List.mem_cons_self _ _, ?_⟩
    intro t ht
    rw [nodeExpiredAt]
    apply List.any_eq_false.mpr
    intro p hp
    rcases List.mem_cons.mp hp with heq | hmem
    · subst heq
      simp only [Bool.and_eq_true, decide_eq_true_eq, not_and]
      intro _
      omega
    · have hne := List.of_mem_filter hmem
      simp only [decide_eq_true_eq] at hne
      simp only [Bool.and_eq_true, decide_eq_true_eq, not_and]
      intro heq
      exact absurd heq hne

def hbServer : HeartbeatServer :=
  { isLeader := true, minHeartbeatTTL := 10, now := 100, heartbeatTimers := [] }

def hbServerAfter : HeartbeatServer :=
  { isLeader := true, minHeartbeatTTL := 10, now := 100,
    heartbeatTimers := [("node1", 113)] }

/-- Witness for C8: renewing `node1` with stagger 3 on a leader with
`MinHeartbeatTTL = 10` yields TTL 13 within `[10, 20]`, installs the timer
with deadline 113, and the node is not expired at time 112. -/
theorem resetHeartbeatTimer_ttl_range_witness :
    (resetHeartbeatTimer hbServer "node1" 3).isSome = true ∧
      10 ≤ 13 ∧ 13 ≤ 2 * 10 ∧
      (("node1", 113) : String × Nat) ∈ hbServerAfter.heartbeatTimers ∧
      nodeExpiredAt hbServerAfter "node1" 112 = false := by
  have h := resetHeartbeatTimer_ttl_range hbServer "node1" 3 rfl (by decide)
  have h2 := h.2 13 hbServerAfter (by decide)
  exact ⟨h.1, h2.1, h2.2.1, h2.2.2.1, h2.2.2.2 112 (by decide)⟩
